import Mathlib

/-!
Verification of the AsphaltTracker backend (src/backend/run_app.py) against
its natural-language specification.

The Python source is shallowly embedded: each endpoint handler becomes a pure
Lean function over an explicit `Store` (the SQLite database), fallible code
returns `Except ApiError`, and uncaught Python exceptions (ValueError,
TypeError, sqlite IntegrityError) are modelled as distinguished error values
that FastAPI would surface as a server error rather than a structured
HTTPException.  Numeric values are modelled with `Nat`, `Int` and `Rat`
(Python ints are unbounded; the decimal literals appearing in CSV uploads are
represented exactly as rationals).
-/

/- ### Python string/number primitives

`pyStrip` models Python `str.strip()`; `pyInt?` models `int(s)` on a string
argument and `pyFloat?` models `float(s)`.  Both parsers accept surrounding
whitespace and an optional sign, as Python does.  `pyFloat?` covers plain
decimal literals (`"61.2"`, `".5"`, `"61."`); exponent, infinity, nan and
underscore-grouping forms are omitted from the model, and no claim in scope
exercises them.  Failure of the Python call (ValueError) is `none`. -/

def pyStrip (cs : List Char) : List Char :=
  ((cs.dropWhile Char.isWhitespace).reverse.dropWhile Char.isWhitespace).reverse

def digitsVal (cs : List Char) : Nat :=
  cs.foldl (fun a c => 10 * a + (c.toNat - 48)) 0

def decDigits? (cs : List Char) : Option Nat :=
  if cs ≠ [] ∧ cs.all Char.isDigit then some (digitsVal cs) else none

def signedInt? (cs : List Char) : Option Int :=
  if cs.head? = some '-' then (decDigits? cs.tail).map (fun n => -(n : Int))
  else if cs.head? = some '+' then (decDigits? cs.tail).map (fun n => (n : Int))
  else (decDigits? cs).map (fun n => (n : Int))

def pyInt? (s : String) : Option Int :=
  signedInt? (pyStrip s.data)

/-- Splits a character list on a separator character, Python
`str.split(sep)` style: `"a;;b"` gives `["a", "", "b"]` and `""` gives
`[""]`. -/
def splitOnChar (sep : Char) : List Char → List (List Char)
  | [] => [[]]
  | c :: cs =>
    match splitOnChar sep cs with
    | [] => [[c]]
    | seg :: rest => if c = sep then [] :: seg :: rest else (c :: seg) :: rest

/-- The value of `w.f` as the exact rational `(w * 10^k + f) / 10^k`.  It is
built with `mkRat` rather than rational addition and division because the
Batteries `Rat` arithmetic is irreducible, which would block kernel
evaluation of the parser; `mkRat` denotes the same number. -/
def mantissa? (cs : List Char) : Option Rat :=
  match splitOnChar '.' cs with
  | [w] => if w ≠ [] ∧ w.all Char.isDigit then some (mkRat (digitsVal w) 1) else none
  | [w, f] =>
      if (w.all Char.isDigit ∧ f.all Char.isDigit) ∧ (w ≠ [] ∨ f ≠ []) then
        some (mkRat (digitsVal w * 10 ^ f.length + digitsVal f) (10 ^ f.length))
      else none
  | _ => none

def signedQ? (cs : List Char) : Option Rat :=
  if cs.head? = some '-' then (mantissa? cs.tail).map (fun q => -q)
  else if cs.head? = some '+' then mantissa? cs.tail
  else mantissa? cs

def pyFloat? (s : String) : Option Rat :=
  signedQ? (pyStrip s.data)

/- ### Decimal-representation roundtrip

`int(str(n)) = n` for a natural `n`: needed for the token subject roundtrip
(the server issues `{"sub": str(user.id)}` and validation runs
`int(payload.get("sub"))`). -/

theorem toDigitsCore_append (fuel : Nat) :
    ∀ (n : Nat) (ds : List Char),
      Nat.toDigitsCore 10 fuel n ds = Nat.toDigitsCore 10 fuel n [] ++ ds := by
  induction fuel with
  | zero => intro n ds; simp [Nat.toDigitsCore]
  | succ fuel ih =>
    intro n ds
    by_cases h : n / 10 = 0
    · simp [Nat.toDigitsCore, h]
    · simp only [Nat.toDigitsCore, h, if_false]
      rw [ih (n / 10) (Nat.digitChar (n % 10) :: ds),
        ih (n / 10) [Nat.digitChar (n % 10)]]
      simp

theorem digitChar_toNat (d : Nat) (h : d < 10) :
    (Nat.digitChar d).toNat = 48 + d := by
  interval_cases d <;> rfl

theorem digitChar_isDigit (d : Nat) (h : d < 10) :
    (Nat.digitChar d).isDigit = true := by
  interval_cases d <;> rfl

theorem digitChar_not_ws (d : Nat) (h : d < 10) :
    (Nat.digitChar d).isWhitespace = false := by
  interval_cases d <;> rfl

theorem digitsVal_append_singleton (l : List Char) (c : Char) :
    digitsVal (l ++ [c]) = 10 * digitsVal l + (c.toNat - 48) := by
  simp [digitsVal, List.foldl_append]

theorem toDigitsCore_val (fuel : Nat) :
    ∀ n : Nat, n < fuel → digitsVal (Nat.toDigitsCore 10 fuel n []) = n := by
  induction fuel with
  | zero => intro n h; omega
  | succ fuel ih =>
    intro n h
    by_cases h10 : n / 10 = 0
    · have hlt : n < 10 := by omega
      simp only [Nat.toDigitsCore, h10, if_true, digitsVal, List.foldl_cons,
        List.foldl_nil, digitChar_toNat (n % 10) (by omega)]
      omega
    · have hn : 0 < n := by
        rcases Nat.eq_zero_or_pos n with h0 | h0
        · exact absurd (by simp [h0]) h10
        · exact h0
      have hdl : n / 10 < n := Nat.div_lt_self hn (by norm_num)
      have hrec : n / 10 < fuel := by omega
      simp only [Nat.toDigitsCore, h10, if_false]
      rw [toDigitsCore_append, digitsVal_append_singleton, ih (n / 10) hrec,
        digitChar_toNat (n % 10) (by omega)]
      omega

theorem toDigitsCore_all_digit (fuel : Nat) :
    ∀ (n : Nat) (ds : List Char), (∀ c ∈ ds, c.isDigit = true) →
      ∀ c ∈ Nat.toDigitsCore 10 fuel n ds, c.isDigit = true := by
  induction fuel with
  | zero => intro n ds hds; simpa [Nat.toDigitsCore] using hds
  | succ fuel ih =>
    intro n ds hds
    by_cases h10 : n / 10 = 0
    · simp only [Nat.toDigitsCore, h10, if_true]
      intro c hc
      rcases List.mem_cons.mp hc with h | h
      · subst h; exact digitChar_isDigit _ (by omega)
      · exact hds c h
    · simp only [Nat.toDigitsCore, h10, if_false]
      refine ih (n / 10) _ ?_
      intro c hc
      rcases List.mem_cons.mp hc with h | h
      · subst h; exact digitChar_isDigit _ (by omega)
      · exact hds c h

theorem toDigitsCore_ne_nil (fuel : Nat) :
    ∀ (n : Nat), 0 < fuel → Nat.toDigitsCore 10 fuel n [] ≠ [] := by
  induction fuel with
  | zero => intro n h; omega
  | succ fuel ih =>
    intro n _
    by_cases h10 : n / 10 = 0
    · simp [Nat.toDigitsCore, h10]
    · simp only [Nat.toDigitsCore, h10, if_false]
      rw [toDigitsCore_append]
      simp

theorem toDigits_all_digit (n : Nat) :
    ∀ c ∈ Nat.toDigits 10 n, c.isDigit = true := by
  intro c hc
  exact toDigitsCore_all_digit (n + 1) n [] (by simp) c hc

theorem isDigit_not_ws (c : Char) (h : c.isDigit = true) :
    c.isWhitespace = false := by
  have h0 : c ≠ ' ' := by intro e; rw [e] at h; exact absurd h (by decide)
  have h1 : c ≠ '\t' := by intro e; rw [e] at h; exact absurd h (by decide)
  have h2 : c ≠ '\r' := by intro e; rw [e] at h; exact absurd h (by decide)
  have h3 : c ≠ '\n' := by intro e; rw [e] at h; exact absurd h (by decide)
  simp [Char.isWhitespace, h0, h1, h2, h3]

theorem dropWhile_ws_of_digits (l : List Char) (h : ∀ c ∈ l, c.isDigit = true) :
    l.dropWhile Char.isWhitespace = l := by
  cases l with
  | nil => rfl
  | cons c cs =>
    have := isDigit_not_ws c (h c (by simp))
    simp [List.dropWhile_cons, this]

theorem pyStrip_of_digits (l : List Char) (h : ∀ c ∈ l, c.isDigit = true) :
    pyStrip l = l := by
  unfold pyStrip
  rw [dropWhile_ws_of_digits l h,
    dropWhile_ws_of_digits l.reverse (fun c hc => h c (List.mem_reverse.mp hc)),
    List.reverse_reverse]

theorem pyInt?_repr (n : Nat) : pyInt? (Nat.repr n) = some (n : Int) := by
  have hdig : ∀ c ∈ Nat.toDigits 10 n, c.isDigit = true := toDigits_all_digit n
  have hdata : (Nat.repr n).data = Nat.toDigits 10 n := by
    simp [Nat.repr, List.asString]
  have hne : Nat.toDigits 10 n ≠ [] := toDigitsCore_ne_nil (n + 1) n (by omega)
  rw [pyInt?, hdata, pyStrip_of_digits _ hdig]
  obtain ⟨c, cs, hcons⟩ := List.exists_cons_of_ne_nil hne
  have hcdig : c.isDigit = true := by rw [hcons] at hdig; exact hdig c (by simp)
  have hnotm : (Nat.toDigits 10 n).head? ≠ some '-' := by
    rw [hcons]; intro h
    have : c = '-' := by simpa using h
    rw [this] at hcdig; exact absurd hcdig (by decide)
  have hnotp : (Nat.toDigits 10 n).head? ≠ some '+' := by
    rw [hcons]; intro h
    have : c = '+' := by simpa using h
    rw [this] at hcdig; exact absurd hcdig (by decide)
  rw [signedInt?, if_neg hnotm, if_neg hnotp, decDigits?,
    if_pos ⟨hne, List.all_eq_true.mpr hdig⟩]
  have : digitsVal (Nat.toDigits 10 n) = n := toDigitsCore_val (n + 1) n (by omega)
  simp [this]

/- ### Data model (run_app.py, SQLAlchemy models, lines 28-55)

Autoincrement primary keys are modelled as list-length successors; the
`created_at` / `occurred_at` timestamp defaults (wall-clock time) and the
`notes` column (always NULL on the upload path) are omitted — no claim
depends on them.  A match's `telemetry` JSON is the single-key mapping
`{"nitro_used": v}` built at line 177, modelled by its value. -/

structure UserRec where
  id : Nat
  username : String
  email : Option String
  password_hash : String
deriving DecidableEq

structure CarRec where
  id : Nat
  name : String
  rarity : Option String
  base_stats : List (String × Rat)
deriving DecidableEq

structure MatchRec where
  user_id : Nat
  car_id : Option Nat
  track : Option String
  position : Int
  lap_times : List Rat
  telemetry_nitro : Rat
deriving DecidableEq

structure Store where
  users : List UserRec
  cars : List CarRec
  player_matches : List MatchRec
deriving DecidableEq

/-- One CSV data row as `csv.DictReader` hands it to the loop at line 175.
A field is `none` when its column is absent from the CSV header, so that
`row.get(key, default)` falls back to the default. -/
structure Row where
  track : Option String
  position : Option String
  lap_times : Option String
  nitro_used : Option String
  car_name : Option String
deriving DecidableEq

/-- Outcomes of a request.  The first four are structured `HTTPException`s
raised by the handlers; `duplicateVehicle` is the structured error named by
the specification taxonomy for the cars endpoint (no handler ever raises
it); `valueError` stands for an uncaught Python ValueError/TypeError and
`integrityError` for an uncaught sqlite IntegrityError at `db.commit()` —
both surface as a server error, not as a structured response. -/
inductive ApiError where
  | usernameTaken
  | badCredentials
  | invalidToken
  | duplicateVehicle
  | valueError
  | integrityError
deriving DecidableEq

/- ### Auth (lines 89-119) -/

/-- Line 89: `os.environ.get("ASPHALT_SECRET", "dev-secret-change-me")`,
modelled at its default. -/
def SECRET_KEY : String := "dev-secret-change-me"

/-- A JWT as the `jose` library presents it: a claims payload plus a
signature over the payload with a secret.  `sigOf` stands for the HS256
MAC; validation only ever compares it for equality with a recomputation. -/
structure Jwt where
  payload : List (String × String)
  sig : Nat
deriving DecidableEq

def sigOf (secret : String) (payload : List (String × String)) : Nat :=
  ((payload.foldl (fun a kv => a ++ "|" ++ kv.1 ++ ":" ++ kv.2) secret).data.foldl
    (fun a c => 31 * a + c.toNat) 7)

/-- Line 107: `jwt.encode(data, SECRET_KEY, algorithm=ALGORITHM)`. -/
def create_access_token (data : List (String × String)) : Jwt :=
  ⟨data, sigOf SECRET_KEY data⟩

/-- Line 152: `create_access_token({"sub": str(user.id)})`. -/
def issueToken (uid : Nat) : Jwt :=
  create_access_token [("sub", Nat.repr uid)]

/-- Lines 110-119.  `jwt.decode` fails (JWTError, caught, 401) iff the
signature does not recompute; `int(payload.get("sub"))` raises an uncaught
TypeError/ValueError when the claim is absent or not integer-shaped; an
unknown subject id gives the 401. -/
def get_current_user (st : Store) (token : Jwt) : Except ApiError UserRec :=
  if token.sig = sigOf SECRET_KEY token.payload then
    match token.payload.lookup "sub" with
    | none => Except.error ApiError.valueError
    | some s =>
      match pyInt? s with
      | none => Except.error ApiError.valueError
      | some uid =>
        match st.users.find? (fun u => (u.id : Int) == uid) with
        | none => Except.error ApiError.invalidToken
        | some u => Except.ok u
  else Except.error ApiError.invalidToken

/- ### Registration and cars (lines 138-159) -/

structure UserCreate where
  username : String
  email : Option String
  password : String
deriving DecidableEq

/-- Line 104: bcrypt via passlib, modelled as an injective tagging — no
claim in scope depends on hash internals. -/
def get_password_hash (p : String) : String :=
  "bcrypt$" ++ p

/-- Lines 138-145.  The handler checks only the username; the UNIQUE
constraint on `users.email` (line 32) fires at `db.commit()` when a
non-null email equals an existing non-null email (sqlite UNIQUE admits
multiple NULLs), and that IntegrityError is not caught. -/
def register (st : Store) (p : UserCreate) : Store × Except ApiError Nat :=
  if st.users.any (fun u => u.username == p.username) then
    (st, Except.error ApiError.usernameTaken)
  else if (match p.email with
           | some e => st.users.any (fun u => u.email == some e)
           | none => false) then
    (st, Except.error ApiError.integrityError)
  else
    let uid := st.users.length + 1
    ({ st with
        users := st.users ++ [⟨uid, p.username, p.email, get_password_hash p.password⟩] },
      Except.ok uid)

structure CarSpec where
  name : String
  rarity : Option String
  base_stats : List (String × Rat)
deriving DecidableEq

/-- Lines 155-159.  The handler performs no duplicate check of its own; the
UNIQUE constraint on `cars.name` (line 39) fires at `db.commit()` and the
IntegrityError is not caught. -/
def add_car (st : Store) (car : CarSpec) : Store × Except ApiError Nat :=
  if st.cars.any (fun c => c.name == car.name) then
    (st, Except.error ApiError.integrityError)
  else
    let cid := st.cars.length + 1
    ({ st with cars := st.cars ++ [⟨cid, car.name, car.rarity, car.base_stats⟩] },
      Except.ok cid)

/- ### Stats (lines 161-168) -/

/-- The stats response; the Python key "matches" is a Lean keyword, hence
`matchCount`. -/
structure StatsOut where
  matchCount : Nat
  wins : Nat
  avg_position : Option Rat
deriving DecidableEq

/-- Lines 161-168, verbatim structure: filter the matches of the user;
empty list short-circuits to the zero response; otherwise count positions
equal to 1 and divide the position sum by the match count. -/
def user_stats (st : Store) (user_id : Nat) : StatsOut :=
  let ms := st.player_matches.filter (fun m => m.user_id == user_id)
  if ms.isEmpty then ⟨0, 0, none⟩
  else
    ⟨ms.length,
     (ms.filter (fun m => m.position == 1)).length,
     some ((((ms.map (fun m => m.position)).sum : Int) : Rat) / (ms.length : Rat))⟩

/- ### Upload (lines 170-183) -/

/-- `float(x)` applied across the comprehension segments in order; the
first unparseable one raises an uncaught ValueError. -/
def parseLaps : List (List Char) → Except ApiError (List Rat)
  | [] => Except.ok []
  | x :: xs =>
    match signedQ? (pyStrip x) with
    | none => Except.error ApiError.valueError
    | some q =>
      match parseLaps xs with
      | Except.error e => Except.error e
      | Except.ok qs => Except.ok (q :: qs)

/-- Line 176: `[float(x) for x in row.get("lap_times","").split(";") if
x.strip()]`.  Segments whose strip is empty are filtered out; `float` is
then applied to each surviving original segment. -/
def parseLapTimes (s : String) : Except ApiError (List Rat) :=
  parseLaps ((splitOnChar ';' s.data).filter (fun x => !(pyStrip x).isEmpty))

/-- Line 177: `float(row.get("nitro_used", 0))` — the absent-column default
is the integer 0, so `float` yields 0.0; a present but unparseable value
raises an uncaught ValueError. -/
def parseNitro (o : Option String) : Except ApiError Rat :=
  match o with
  | none => Except.ok 0
  | some s =>
    match pyFloat? s with
    | some q => Except.ok q
    | none => Except.error ApiError.valueError

/-- Line 180: `int(row.get("position", 0))` — same shape as `parseNitro`. -/
def parsePosition (o : Option String) : Except ApiError Int :=
  match o with
  | none => Except.ok 0
  | some s =>
    match pyInt? s with
    | some n => Except.ok n
    | none => Except.error ApiError.valueError

/-- Lines 178-179: `db.query(Car).filter(Car.name == row.get("car_name"))
.first()`.  An absent column gives `Car.name == None`, i.e. `name IS NULL`,
which matches no car since names are never null. -/
def lookupCar (cars : List CarRec) (name : Option String) : Option CarRec :=
  match name with
  | none => none
  | some n => cars.find? (fun c => c.name == n)

/-- Lines 176-180 for one row, in source evaluation order (lap_times, then
nitro_used, then the car lookup, then position inside the constructor
call). -/
def processRow (cars : List CarRec) (uid : Nat) (row : Row) :
    Except ApiError MatchRec := do
  let laps ← parseLapTimes (row.lap_times.getD "")
  let nitro ← parseNitro row.nitro_used
  let car := lookupCar cars row.car_name
  let pos ← parsePosition row.position
  Except.ok
    { user_id := uid, car_id := car.map (fun c => c.id), track := row.track,
      position := pos, lap_times := laps, telemetry_nitro := nitro }

/-- The loop of lines 175-181: each parsed record is `db.add`ed to the
session (`pending`) and `created` incremented; an exception escapes the
loop with the session uncommitted. -/
def uploadLoop (cars : List CarRec) (uid : Nat) :
    List Row → List MatchRec → Nat → Except ApiError (List MatchRec × Nat)
  | [], pending, created => Except.ok (pending, created)
  | r :: rs, pending, created =>
    match processRow cars uid r with
    | Except.error e => Except.error e
    | Except.ok m => uploadLoop cars uid rs (pending ++ [m]) (created + 1)

/-- Lines 174-183 past authentication: run the loop; only a completed loop
reaches the single `db.commit()` at line 182, which makes the whole pending
batch visible at once. -/
def uploadCore (st : Store) (uid : Nat) (rows : List Row) :
    Store × Except ApiError Nat :=
  match uploadLoop st.cars uid rows [] 0 with
  | Except.error e => (st, Except.error e)
  | Except.ok (recs, created) =>
    ({ st with player_matches := st.player_matches ++ recs }, Except.ok created)

/-- Lines 170-183 whole endpoint: `get_current_user` gates the call and the
loop runs bound to the authenticated id. -/
def upload_matches (st : Store) (token : Jwt) (rows : List Row) :
    Store × Except ApiError Nat :=
  match get_current_user st token with
  | Except.error e => (st, Except.error e)
  | Except.ok u => uploadCore st u.id rows

/- ### Generic helpers -/

instance {ε α : Type} [DecidableEq ε] [DecidableEq α] : DecidableEq (Except ε α) := fun a b =>
  match a, b with
  | Except.error e1, Except.error e2 =>
    if h : e1 = e2 then isTrue (by rw [h]) else isFalse (by intro hc; cases hc; exact h rfl)
  | Except.ok v1, Except.ok v2 =>
    if h : v1 = v2 then isTrue (by rw [h]) else isFalse (by intro hc; cases hc; exact h rfl)
  | Except.error _, Except.ok _ => isFalse (by intro hc; cases hc)
  | Except.ok _, Except.error _ => isFalse (by intro hc; cases hc)

/-- A successful `processRow` is exactly a success of the three fallible
field parses, with the record assembled from their results. -/
theorem processRow_ok_iff (cars : List CarRec) (uid : Nat) (row : Row) (m : MatchRec) :
    processRow cars uid row = Except.ok m ↔
      ∃ laps nitro pos,
        parseLapTimes (row.lap_times.getD "") = Except.ok laps ∧
        parseNitro row.nitro_used = Except.ok nitro ∧
        parsePosition row.position = Except.ok pos ∧
        m = { user_id := uid, car_id := (lookupCar cars row.car_name).map (fun c => c.id),
              track := row.track, position := pos, lap_times := laps,
              telemetry_nitro := nitro } := by
  cases h1 : parseLapTimes (row.lap_times.getD "") with
  | error e => simp [processRow, h1, Bind.bind, Except.bind]
  | ok laps =>
    cases h2 : parseNitro row.nitro_used with
    | error e => simp [processRow, h1, h2, Bind.bind, Except.bind]
    | ok nitro =>
      cases h3 : parsePosition row.position with
      | error e => simp [processRow, h1, h2, h3, Bind.bind, Except.bind]
      | ok pos =>
        simp only [processRow, h1, h2, h3, Bind.bind, Except.bind]
        constructor
        · intro h
          exact ⟨laps, nitro, pos, rfl, rfl, rfl, by cases h; rfl⟩
        · rintro ⟨laps2, nitro2, pos2, e1, e2, e3, rm⟩
          cases e1; cases e2; cases e3; rw [rm]

/-- Row-by-row processing of the whole batch: the result of the loop of
lines 175-181 viewed as one fallible computation (first error wins, in
input order). -/
def processRows (cars : List CarRec) (uid : Nat) : List Row → Except ApiError (List MatchRec)
  | [] => Except.ok []
  | r :: rs =>
    match processRow cars uid r with
    | Except.error e => Except.error e
    | Except.ok m =>
      match processRows cars uid rs with
      | Except.error e => Except.error e
      | Except.ok ms => Except.ok (m :: ms)

/-- The upload loop threads the session list and created counter through
`processRows`. -/
theorem uploadLoop_eq (cars : List CarRec) (uid : Nat) :
    ∀ (rows : List Row) (pending : List MatchRec) (created : Nat),
      uploadLoop cars uid rows pending created =
        (match processRows cars uid rows with
          | Except.error e => Except.error e
          | Except.ok recs => Except.ok (pending ++ recs, created + recs.length)) := by
  intro rows
  induction rows with
  | nil =>
    intro pending created
    simp [uploadLoop, processRows]
  | cons r rs ih =>
    intro pending created
    cases h : processRow cars uid r with
    | error e => simp [uploadLoop, processRows, h]
    | ok m =>
      rw [uploadLoop, h]
      show uploadLoop cars uid rs (pending ++ [m]) (created + 1) = _
      rw [ih (pending ++ [m]) (created + 1)]
      cases hm : processRows cars uid rs with
      | error e => simp [processRows, h, hm]
      | ok recs =>
        simp [processRows, h, hm, List.append_assoc]
        omega

/-- Specification-side reading of the lap comprehension: all segments parse
or the whole thing is `none`. -/
def lapsSpec : List (List Char) → Option (List Rat)
  | [] => some []
  | x :: xs =>
    match signedQ? (pyStrip x), lapsSpec xs with
    | some q, some qs => some (q :: qs)
    | _, _ => none

/-- `parseLaps` succeeds exactly when every segment parses, with the same
values. -/
theorem parseLaps_ok_iff :
    ∀ (l : List (List Char)) (out : List Rat),
      parseLaps l = Except.ok out ↔ lapsSpec l = some out := by
  intro l
  induction l with
  | nil => intro out; simp [parseLaps, lapsSpec]
  | cons x xs ih =>
    intro out
    cases hq : signedQ? (pyStrip x) with
    | none => simp [parseLaps, lapsSpec, hq]
    | some q =>
      cases hx : parseLaps xs with
      | error e =>
        cases hs : lapsSpec xs with
        | none => simp [parseLaps, lapsSpec, hq, hx, hs]
        | some qs => exact absurd ((ih qs).mpr hs) (by simp [hx])
      | ok qs =>
        have hs : lapsSpec xs = some qs := (ih qs).mp hx
        simp [parseLaps, lapsSpec, hq, hx, hs]

/- ### Concrete fixtures used by witnesses and counterexamples -/

def emptyStore : Store := ⟨[], [], []⟩

def demoUser : UserRec := ⟨1, "alice", none, get_password_hash "pw"⟩

def demoStore : Store := ⟨[demoUser], [], []⟩

/-- Every record of a successful batch comes from some row succeeding. -/
theorem processRows_mem (cars : List CarRec) (uid : Nat) :
    ∀ (l : List Row) (out : List MatchRec),
      processRows cars uid l = Except.ok out →
      ∀ b ∈ out, ∃ a ∈ l, processRow cars uid a = Except.ok b := by
  intro l
  induction l with
  | nil =>
    intro out h b hb
    simp only [processRows, Except.ok.injEq] at h
    subst h
    simp at hb
  | cons a l ih =>
    intro out h b hb
    cases hf : processRow cars uid a with
    | error e => simp [processRows, hf] at h
    | ok v =>
      cases hm : processRows cars uid l with
      | error e => simp [processRows, hf, hm] at h
      | ok out2 =>
        simp only [processRows, hf, hm, Except.ok.injEq] at h
        subst h
        rcases List.mem_cons.mp hb with hb | hb
        · exact ⟨a, by simp, by rw [hf, hb]⟩
        · obtain ⟨a2, ha2, hfa2⟩ := ih out2 hm b hb
          exact ⟨a2, by simp [ha2], hfa2⟩

theorem processRow_user_id (cars : List CarRec) (uid : Nat) (row : Row)
    (m : MatchRec) (h : processRow cars uid row = Except.ok m) : m.user_id = uid := by
  rw [processRow_ok_iff] at h
  obtain ⟨_, _, _, _, _, _, rfl⟩ := h
  rfl

/- ### Rows used by witnesses and counterexamples -/

/-- A fully well-formed row (position 2, laps 61.2 and 59.9, nitro 1.5). -/
def rowFine : Row := ⟨some "monza", some "2", some "61.2;;59.9", some "1.5", none⟩

/-- A row whose position field is present but not integer-shaped. -/
def rowBadPos : Row := ⟨some "monza", some "abc", some "61.2", some "1.5", none⟩

/-- A row with position and nitro_used columns absent. -/
def rowNoPos : Row := ⟨some "monza", none, some "61.2;;59.9", none, none⟩

/- ### C1 -/

/-- C1 as stated is false: a present but malformed position field does not
default to 0 — `int("abc")` raises an uncaught ValueError and the ingestion
call itself fails, persisting nothing. -/
theorem claim_C1_counterexample :
    (uploadCore emptyStore 1 [rowBadPos]).2 = Except.error ApiError.valueError ∧
    (uploadCore emptyStore 1 [rowBadPos]).1 = emptyStore := by
  decide

/-- C1 (amended): an absent position column yields position 0 and an absent
nitro_used column yields telemetry value 0; but a present position or
nitro_used value that fails parsing makes the row — and with it the whole
ingestion call — fail rather than default. -/
theorem claim_C1_amended :
    (∀ cars uid row m, processRow cars uid row = Except.ok m →
      (row.position = none → m.position = 0) ∧
      (row.nitro_used = none → m.telemetry_nitro = 0)) ∧
    (∀ cars uid row s, row.position = some s → pyInt? s = none →
      ∀ m, processRow cars uid row ≠ Except.ok m) ∧
    (∀ cars uid row s, row.nitro_used = some s → pyFloat? s = none →
      ∀ m, processRow cars uid row ≠ Except.ok m) := by
  refine ⟨?_, ?_, ?_⟩
  · intro cars uid row m h
    rw [processRow_ok_iff] at h
    obtain ⟨laps, nitro, pos, hl, hn, hp, rfl⟩ := h
    constructor
    · intro hpos
      rw [hpos] at hp
      simp only [parsePosition, Except.ok.injEq] at hp
      show pos = 0
      omega
    · intro hnit
      rw [hnit] at hn
      simp only [parseNitro, Except.ok.injEq] at hn
      show nitro = 0
      exact hn.symm
  · intro cars uid row s hs hparse m h
    rw [processRow_ok_iff] at h
    obtain ⟨laps, nitro, pos, hl, hn, hp, _⟩ := h
    rw [hs] at hp
    simp [parsePosition, hparse] at hp
  · intro cars uid row s hs hparse m h
    rw [processRow_ok_iff] at h
    obtain ⟨laps, nitro, pos, hl, hn, hp, _⟩ := h
    rw [hs] at hn
    simp [parseNitro, hparse] at hn

theorem claim_C1_witness :
    (rowNoPos.position = none → MatchRec.position
        ⟨1, none, some "monza", 0, [mkRat 612 10, mkRat 599 10], 0⟩ = 0) ∧
    (rowNoPos.nitro_used = none → MatchRec.telemetry_nitro
        ⟨1, none, some "monza", 0, [mkRat 612 10, mkRat 599 10], 0⟩ = 0) :=
  claim_C1_amended.1 [] 1 rowNoPos
    ⟨1, none, some "monza", 0, [mkRat 612 10, mkRat 599 10], 0⟩ (by decide)

/- ### C2 -/

/-- C2 as stated is false at its own example: in
`lap_times="61.2;; abc;59.9"` the segment `" abc"` survives the blank
filter (its strip is nonempty), `float(" abc")` raises an uncaught
ValueError, and no lap sequence is stored — rather than `" abc"` being
silently discarded.  `mkRat 306 5` and `mkRat 599 10` are 61.2 and 59.9. -/
theorem claim_C2_counterexample :
    parseLapTimes "61.2;; abc;59.9" ≠ Except.ok [mkRat 306 5, mkRat 599 10] ∧
    parseLapTimes "61.2;; abc;59.9" = Except.error ApiError.valueError := by
  decide

/-- C2 (amended): the lap_times field is split on semicolons and segments
that are empty or whitespace-only are silently discarded; each surviving
segment must parse as a floating-point number, a failure aborting the
ingestion call; `lap_times="61.2;;59.9"` yields exactly `[61.2, 59.9]`. -/
theorem claim_C2_amended :
    (∀ (s : String) (laps : List Rat),
      parseLapTimes s = Except.ok laps ↔
        lapsSpec ((splitOnChar ';' s.data).filter (fun x => !(pyStrip x).isEmpty)) =
          some laps) ∧
    parseLapTimes "61.2;;59.9" = Except.ok [mkRat 306 5, mkRat 599 10] := by
  constructor
  · intro s laps
    rw [parseLapTimes]
    exact parseLaps_ok_iff _ laps
  · decide

/- ### C3 -/

/-- `uploadCore` in terms of `mapM`: all-or-nothing on the batch. -/
theorem uploadCore_eq (st : Store) (uid : Nat) (rows : List Row) :
    uploadCore st uid rows =
      match processRows st.cars uid rows with
      | Except.error e => (st, Except.error e)
      | Except.ok recs =>
        ({ st with player_matches := st.player_matches ++ recs },
          Except.ok recs.length) := by
  unfold uploadCore
  rw [uploadLoop_eq]
  cases hm : processRows st.cars uid rows with
  | error e => rfl
  | ok recs => simp

/-- C3: one ingestion call is atomic — on any error the store is unchanged
(nothing of the session is committed), and on success the batch of every
parsed row is appended at once, the created count being its length. -/
theorem claim_C3_upload_atomic (st : Store) (uid : Nat) (rows : List Row) :
    (∀ e, (uploadCore st uid rows).2 = Except.error e →
      (uploadCore st uid rows).1 = st) ∧
    (∀ n, (uploadCore st uid rows).2 = Except.ok n →
      ∃ recs, processRows st.cars uid rows = Except.ok recs ∧
        (uploadCore st uid rows).1 =
          { st with player_matches := st.player_matches ++ recs } ∧
        n = recs.length) := by
  rw [uploadCore_eq]
  cases hm : processRows st.cars uid rows with
  | error e =>
    constructor
    · intro e2 he
      rfl
    · intro n hn
      simp at hn
  | ok recs =>
    constructor
    · intro e2 he
      simp at he
    · intro n hn
      simp only [Except.ok.injEq] at hn
      exact ⟨recs, rfl, rfl, hn.symm⟩

theorem claim_C3_witness :
    ∃ recs, processRows emptyStore.cars 1 [rowFine] = Except.ok recs ∧
      (uploadCore emptyStore 1 [rowFine]).1 =
        { emptyStore with player_matches := emptyStore.player_matches ++ recs } ∧
      1 = recs.length :=
  (claim_C3_upload_atomic emptyStore 1 [rowFine]).2 1 (by decide)

/- ### C4 -/

/-- C4: when an upload succeeds, every newly persisted record carries as
its user_id exactly the id of the user resolved from the validated bearer
token, whose id in turn equals the integer parsed from the token's subject
claim; nothing from the uploaded rows enters user_id. -/
theorem claim_C4_identity (st : Store) (tok : Jwt) (rows : List Row) (u : UserRec)
    (hu : get_current_user st tok = Except.ok u)
    (st2 : Store) (n : Nat)
    (hok : upload_matches st tok rows = (st2, Except.ok n)) :
    (∃ s i, tok.payload.lookup "sub" = some s ∧ pyInt? s = some i ∧
      (u.id : Int) = i) ∧
    ∀ m ∈ st2.player_matches, m ∈ st.player_matches ∨ m.user_id = u.id := by
  constructor
  · unfold get_current_user at hu
    by_cases hs : tok.sig = sigOf SECRET_KEY tok.payload
    · rw [if_pos hs] at hu
      cases hsub : tok.payload.lookup "sub" with
      | none => simp [hsub] at hu
      | some s =>
        simp only [hsub] at hu
        cases hi : pyInt? s with
        | none => simp [hi] at hu
        | some i =>
          simp only [hi] at hu
          cases hf : st.users.find? (fun u2 => (u2.id : Int) == i) with
          | none => simp [hf] at hu
          | some u2 =>
            simp only [hf] at hu
            injection hu with hu2
            have hp := List.find?_some hf
            subst hu2
            exact ⟨s, i, rfl, hi, by simpa using hp⟩
    · rw [if_neg hs] at hu
      simp at hu
  · unfold upload_matches at hok
    simp only [hu] at hok
    rw [uploadCore_eq] at hok
    cases hm : processRows st.cars u.id rows with
    | error e =>
      rw [hm] at hok
      simp at hok
    | ok recs =>
      rw [hm] at hok
      have hok2 : ({ st with player_matches := st.player_matches ++ recs },
          Except.ok (ε := ApiError) recs.length) = (st2, Except.ok n) := hok
      injection hok2 with h1 h2
      subst h1
      intro m hmem
      have hmem2 : m ∈ st.player_matches ++ recs := hmem
      rcases List.mem_append.mp hmem2 with hmem3 | hmem3
      · exact Or.inl hmem3
      · obtain ⟨r, _, hr⟩ := processRows_mem st.cars u.id rows recs hm m hmem3
        exact Or.inr (processRow_user_id st.cars u.id r m hr)

theorem claim_C4_witness :
    (∃ s i, (issueToken 1).payload.lookup "sub" = some s ∧ pyInt? s = some i ∧
      ((demoUser.id : Int) = i)) ∧
    ∀ m ∈ (Store.player_matches
        ⟨[demoUser], [],
          [⟨1, none, some "monza", 2, [mkRat 612 10, mkRat 599 10], mkRat 15 10⟩]⟩),
      m ∈ demoStore.player_matches ∨ m.user_id = demoUser.id :=
  claim_C4_identity demoStore (issueToken 1) [rowFine] demoUser (by decide)
    ⟨[demoUser], [],
      [⟨1, none, some "monza", 2, [mkRat 612 10, mkRat 599 10], mkRat 15 10⟩]⟩
    1 (by decide)

/- ### C5 -/

/-- C5: issuing a token for a userId that belongs to an existing user and
validating it yields back exactly that user; and any token whose signature
is not the correct MAC of its payload is rejected with the invalid-token
error. -/
theorem claim_C5_token_roundtrip :
    (∀ (st : Store) (uid : Nat), (∃ u ∈ st.users, u.id = uid) →
      ∃ u, get_current_user st (issueToken uid) = Except.ok u ∧ u.id = uid) ∧
    (∀ (st : Store) (payload : List (String × String)) (sg : Nat),
      sg ≠ sigOf SECRET_KEY payload →
      get_current_user st ⟨payload, sg⟩ = Except.error ApiError.invalidToken) := by
  constructor
  · intro st uid hex
    obtain ⟨u, hu, hid⟩ := hex
    have hmem : ∃ x ∈ st.users, ((x.id : Int) == ((uid : Nat) : Int)) = true :=
      ⟨u, hu, by simp [hid]⟩
    have hsome := List.find?_isSome.mpr hmem
    obtain ⟨u2, hu2⟩ := Option.isSome_iff_exists.mp hsome
    have hp := List.find?_some hu2
    have hcast : (u2.id : Int) = ((uid : Nat) : Int) := by simpa using hp
    have hid2 : u2.id = uid := by exact_mod_cast hcast
    refine ⟨u2, ?_, hid2⟩
    show get_current_user st (issueToken uid) = Except.ok u2
    unfold get_current_user
    have hsig : (issueToken uid).sig = sigOf SECRET_KEY (issueToken uid).payload := rfl
    rw [if_pos hsig]
    have hl : (issueToken uid).payload.lookup "sub" = some (Nat.repr uid) := by
      simp [issueToken, create_access_token, List.lookup]
    simp only [hl, pyInt?_repr, hu2]
  · intro st payload sg hns
    unfold get_current_user
    have hc : ¬((Jwt.mk payload sg).sig =
        sigOf SECRET_KEY (Jwt.mk payload sg).payload) := hns
    rw [if_neg hc]

theorem claim_C5_witness :
    (∃ u, get_current_user demoStore (issueToken 1) = Except.ok u ∧ u.id = 1) ∧
    get_current_user demoStore ⟨[("sub", "1")], 0⟩ =
      Except.error ApiError.invalidToken :=
  ⟨claim_C5_token_roundtrip.1 demoStore 1 ⟨demoUser, by decide, by decide⟩,
   claim_C5_token_roundtrip.2 demoStore [("sub", "1")] 0 (by decide)⟩

/- ### C6 -/

/-- A correctly signed token whose subject claim is present but not
integer-shaped. -/
def badSubToken : Jwt := ⟨[("sub", "abc")], sigOf SECRET_KEY [("sub", "abc")]⟩

/-- C6 as stated is false: for a correctly signed token whose subject claim
is `"abc"`, the subject does not resolve to any existing user, yet the
caller does not receive the invalid-token error — `int("abc")` raises an
uncaught ValueError inside the try block, which only catches JWTError, so a
server error escapes instead of the 401. -/
theorem claim_C6_counterexample :
    ¬ ((get_current_user demoStore badSubToken = Except.error ApiError.invalidToken) ↔
      (badSubToken.sig ≠ sigOf SECRET_KEY badSubToken.payload ∨
        ¬ ∃ u ∈ demoStore.users,
          (badSubToken.payload.lookup "sub").bind pyInt? = some (u.id : Int))) := by
  decide

/-- C6 (amended): validation fails with the invalid-token error exactly
when the signature does not verify or the subject claim parses to an
integer matching no existing user; when the signature verifies but the
subject claim is absent or not integer-shaped, an uncaught error — not the
invalid-token rejection — escapes instead. -/
theorem claim_C6_amended (st : Store) (tok : Jwt) :
    (get_current_user st tok = Except.error ApiError.invalidToken ↔
      (tok.sig ≠ sigOf SECRET_KEY tok.payload ∨
        (∃ i : Int, (tok.payload.lookup "sub").bind pyInt? = some i ∧
          ∀ u ∈ st.users, (u.id : Int) ≠ i))) ∧
    (tok.sig = sigOf SECRET_KEY tok.payload →
      (tok.payload.lookup "sub").bind pyInt? = none →
      get_current_user st tok = Except.error ApiError.valueError) := by
  by_cases hs : tok.sig = sigOf SECRET_KEY tok.payload
  · constructor
    · cases hsub : tok.payload.lookup "sub" with
      | none =>
        have hval : get_current_user st tok = Except.error ApiError.valueError := by
          unfold get_current_user
          rw [if_pos hs]
          simp only [hsub]
        rw [hval]
        refine iff_of_false (by simp) ?_
        rintro (hbad | ⟨i, hi2, _⟩)
        · exact hbad hs
        · simp [Option.bind] at hi2
      | some s =>
        cases hi : pyInt? s with
        | none =>
          have hval : get_current_user st tok = Except.error ApiError.valueError := by
            unfold get_current_user
            rw [if_pos hs]
            simp only [hsub, hi]
          rw [hval]
          refine iff_of_false (by simp) ?_
          rintro (hbad | ⟨i, hi2, _⟩)
          · exact hbad hs
          · simp [Option.bind, hi] at hi2
        | some i =>
          cases hf : st.users.find? (fun u2 => (u2.id : Int) == i) with
          | none =>
            have hval : get_current_user st tok =
                Except.error ApiError.invalidToken := by
              unfold get_current_user
              rw [if_pos hs]
              simp only [hsub, hi, hf]
            rw [hval]
            refine iff_of_true rfl (Or.inr ⟨i, by simp [Option.bind, hi], ?_⟩)
            intro u hu hui
            have hno := List.find?_eq_none.mp hf u hu
            simp [hui] at hno
          | some u =>
            have hpu := List.find?_some hf
            have humem := List.mem_of_find?_eq_some hf
            have hui : (u.id : Int) = i := by simpa using hpu
            have hval : get_current_user st tok = Except.ok u := by
              unfold get_current_user
              rw [if_pos hs]
              simp only [hsub, hi, hf]
            rw [hval]
            refine iff_of_false (by simp) ?_
            rintro (hbad | ⟨i2, hi2, hall⟩)
            · exact hbad hs
            · simp [Option.bind, hi] at hi2
              exact (hall u humem) (by rw [hui, hi2])
    · intro _ hnone
      cases hsub : tok.payload.lookup "sub" with
      | none =>
        unfold get_current_user
        rw [if_pos hs]
        simp only [hsub]
      | some s =>
        rw [hsub] at hnone
        simp [Option.bind] at hnone
        unfold get_current_user
        rw [if_pos hs]
        simp only [hsub, hnone]
  · constructor
    · have hval : get_current_user st tok = Except.error ApiError.invalidToken := by
        unfold get_current_user
        rw [if_neg hs]
      exact iff_of_true hval (Or.inl hs)
    · intro hcontra _
      exact absurd hcontra hs

theorem claim_C6_witness :
    get_current_user demoStore badSubToken = Except.error ApiError.valueError :=
  (claim_C6_amended demoStore badSubToken).2 (by decide) (by decide)

/- ### C7 -/

def rowPos1 : Row := ⟨some "spa", some "1", some "60.0", some "0", none⟩

def rowPos3 : Row := ⟨some "spa", some "3", some "60.0", some "0", none⟩

def rowPos2 : Row := ⟨some "spa", some "2", some "60.0", some "0", none⟩

/-- The store after ingesting exactly three records with positions 1, 3, 2
for user 1. -/
def statsDemoStore : Store := (uploadCore demoStore 1 [rowPos1, rowPos3, rowPos2]).1

/-- C7: a user with no match records gets the zero response with a null
average; otherwise wins counts the records with position exactly 1 and the
average position is the arithmetic mean over all of the user's records,
zero/unknown positions included; ingesting positions [1, 3, 2] gives
3 matches, 1 win, average exactly 2. -/
theorem claim_C7_stats (st : Store) (uid : Nat) :
    (st.player_matches.filter (fun m => m.user_id == uid) = [] →
      user_stats st uid = ⟨0, 0, none⟩) ∧
    (∀ ms, ms = st.player_matches.filter (fun m => m.user_id == uid) → ms ≠ [] →
      user_stats st uid =
        ⟨ms.length, (ms.filter (fun m => m.position == 1)).length,
          some ((((ms.map (fun m => m.position)).sum : Int) : Rat) /
            ((ms.length : Nat) : Rat))⟩) ∧
    user_stats statsDemoStore 1 = ⟨3, 1, some 2⟩ := by
  refine ⟨?_, ?_, ?_⟩
  · intro h
    simp [user_stats, h]
  · intro ms hms hne
    simp only [user_stats, ← hms]
    rw [if_neg (by simpa using hne)]
  · have hform : user_stats statsDemoStore 1 =
        ⟨3, 1, some (((6 : Int) : Rat) / ((3 : Nat) : Rat))⟩ := rfl
    rw [hform]
    have hval : ((6 : Int) : Rat) / ((3 : Nat) : Rat) = 2 := by
      push_cast
      norm_num
    rw [hval]

theorem claim_C7_witness : user_stats emptyStore 5 = ⟨0, 0, none⟩ :=
  (claim_C7_stats emptyStore 5).1 rfl

/- ### C8 -/

def demoCarStore : Store := ⟨[demoUser], [⟨1, "Falcon GT", some "Epic", []⟩], []⟩

/-- A parseable row naming a car that is not in the catalog. -/
def rowCarUnknown : Row := ⟨some "spa", some "4", some "61.2", some "0", some "Ghost Rider"⟩

/-- C8: a row whose car_name matches no catalog vehicle still produces a
persisted record, with a null vehicle reference, and the created count
still counts the row — an unrecognized name is never by itself a failure. -/
theorem claim_C8_unknown_car (st : Store) (uid : Nat) (row : Row) (m : MatchRec)
    (h : processRow st.cars uid row = Except.ok m)
    (hcar : ∀ c ∈ st.cars, some c.name ≠ row.car_name) :
    m.car_id = none ∧
    uploadCore st uid [row] =
      ({ st with player_matches := st.player_matches ++ [m] }, Except.ok 1) := by
  have hlook : lookupCar st.cars row.car_name = none := by
    cases hc : row.car_name with
    | none => rfl
    | some nm =>
      rw [hc] at hcar
      simp only [lookupCar]
      rw [List.find?_eq_none]
      intro c hcm hb
      have hcn : c.name = nm := by simpa using hb
      exact hcar c hcm (by rw [hcn])
  constructor
  · rw [processRow_ok_iff] at h
    obtain ⟨laps, nitro, pos, _, _, _, rfl⟩ := h
    show (lookupCar st.cars row.car_name).map (fun c => c.id) = none
    rw [hlook]
    rfl
  · rw [uploadCore_eq]
    have hrows : processRows st.cars uid [row] = Except.ok [m] := by
      simp [processRows, h]
    rw [hrows]
    simp

theorem claim_C8_witness :
    MatchRec.car_id ⟨1, none, some "spa", 4, [mkRat 612 10], 0⟩ = none ∧
    uploadCore demoCarStore 1 [rowCarUnknown] =
      ({ demoCarStore with player_matches := demoCarStore.player_matches ++
          [⟨1, none, some "spa", 4, [mkRat 612 10], 0⟩] }, Except.ok 1) :=
  claim_C8_unknown_car demoCarStore 1 rowCarUnknown
    ⟨1, none, some "spa", 4, [mkRat 612 10], 0⟩ (by decide) (by decide)

/- ### C9 -/

def dupCarSpec : CarSpec := ⟨"Falcon GT", some "Legend", []⟩

/-- C9 as stated is false: re-adding a stored vehicle name does make the
call fail, but with the uncaught storage-level IntegrityError from the
UNIQUE constraint at commit — the handler has no duplicate check of its
own, so no structured DuplicateVehicle rejection is ever produced. -/
theorem claim_C9_counterexample :
    add_car demoCarStore dupCarSpec ≠
      (demoCarStore, Except.error ApiError.duplicateVehicle) ∧
    add_car demoCarStore dupCarSpec =
      (demoCarStore, Except.error ApiError.integrityError) := by
  decide

/-- C9 (amended): adding a vehicle whose name equals a stored vehicle's
name fails — with an unhandled storage-level uniqueness error surfaced as a
server error, not with a structured DuplicateVehicle — and leaves the store
unchanged; the name is the only uniqueness constraint: any fresh name is
accepted whatever the other fields are. -/
theorem claim_C9_amended (st : Store) (car : CarSpec) :
    ((∃ c ∈ st.cars, c.name = car.name) →
      add_car st car = (st, Except.error ApiError.integrityError)) ∧
    ((∀ c ∈ st.cars, c.name ≠ car.name) →
      add_car st car =
        ({ st with cars := st.cars ++
            [⟨st.cars.length + 1, car.name, car.rarity, car.base_stats⟩] },
          Except.ok (st.cars.length + 1))) := by
  constructor
  · rintro ⟨c, hc, he⟩
    unfold add_car
    have hany : st.cars.any (fun c2 => c2.name == car.name) = true :=
      List.any_eq_true.mpr ⟨c, hc, by simp [he]⟩
    rw [if_pos hany]
  · intro hall
    unfold add_car
    have hany : ¬(st.cars.any (fun c2 => c2.name == car.name) = true) := by
      rw [List.any_eq_true]
      rintro ⟨c, hc, hb⟩
      exact hall c hc (by simpa using hb)
    rw [if_neg hany]

def demoCarStore2 : Store := ⟨[], [⟨1, "Viper X", none, []⟩], []⟩

def dupCarSpec2 : CarSpec := ⟨"Viper X", some "Epic", [("speed", mkRat 820 1)]⟩

def freshCarSpec : CarSpec := ⟨"Nimbus", some "Epic", []⟩

theorem claim_C9_witness :
    add_car demoCarStore2 dupCarSpec2 =
      (demoCarStore2, Except.error ApiError.integrityError) ∧
    add_car demoCarStore2 freshCarSpec =
      ({ demoCarStore2 with cars := demoCarStore2.cars ++
          [⟨demoCarStore2.cars.length + 1, freshCarSpec.name, freshCarSpec.rarity,
            freshCarSpec.base_stats⟩] },
        Except.ok (demoCarStore2.cars.length + 1)) :=
  ⟨(claim_C9_amended demoCarStore2 dupCarSpec2).1 ⟨⟨1, "Viper X", none, []⟩, by decide, rfl⟩,
   (claim_C9_amended demoCarStore2 freshCarSpec).2 (by decide)⟩

/- ### C10 -/

/-- C10: registering a second user with a distinct, fresh username but an
email equal to an existing non-null email is not rejected with the
structured duplicate-username error; the UNIQUE constraint on email fires
at commit as an unhandled storage error and no second user is persisted
(the store is unchanged). -/
theorem claim_C10_email_conflict (st : Store) (p1 p2 : UserCreate) (e : String)
    (he1 : p1.email = some e) (he2 : p2.email = some e)
    (hn : p2.username ≠ p1.username)
    (hfresh : ∀ u ∈ st.users, u.username ≠ p2.username)
    (st1 : Store) (uid : Nat)
    (h1 : register st p1 = (st1, Except.ok uid)) :
    register st1 p2 = (st1, Except.error ApiError.integrityError) ∧
    register st1 p2 ≠ (st1, Except.error ApiError.usernameTaken) := by
  unfold register at h1
  by_cases hg1 : st.users.any (fun u => u.username == p1.username) = true
  · rw [if_pos hg1] at h1
    simp at h1
  · rw [if_neg hg1] at h1
    by_cases hg2 : (match p1.email with
        | some e2 => st.users.any (fun u => u.email == some e2)
        | none => false) = true
    · rw [if_pos hg2] at h1
      simp at h1
    · rw [if_neg hg2] at h1
      have h1c : (({ st with users := st.users ++
            [⟨st.users.length + 1, p1.username, p1.email,
              get_password_hash p1.password⟩] } : Store),
          (Except.ok (st.users.length + 1) : Except ApiError Nat)) =
          (st1, Except.ok uid) := h1
      injection h1c with hst huid
      subst hst
      set newu : UserRec := ⟨st.users.length + 1, p1.username, p1.email,
        get_password_hash p1.password⟩ with hnewu
      have hres : register { st with users := st.users ++ [newu] } p2 =
          ({ st with users := st.users ++ [newu] },
            Except.error ApiError.integrityError) := by
        unfold register
        have hga : ¬((st.users ++ [newu]).any
            (fun u => u.username == p2.username) = true) := by
          rw [List.any_eq_true]
          rintro ⟨u, hu, hb⟩
          have hub : u.username = p2.username := by simpa using hb
          rcases List.mem_append.mp hu with hmem | hmem
          · exact hfresh u hmem hub
          · have hu1 : u = newu := by simpa using hmem
            rw [hu1, hnewu] at hub
            exact hn hub.symm
        rw [if_neg hga]
        have hgb : (match p2.email with
            | some e2 => (st.users ++ [newu]).any (fun u => u.email == some e2)
            | none => false) = true := by
          rw [he2]
          refine List.any_eq_true.mpr ⟨newu, by simp, ?_⟩
          show (p1.email == some e) = true
          simp [he1]
        rw [if_pos hgb]
      exact ⟨hres, by rw [hres]; simp⟩

def regSpec1 : UserCreate := ⟨"carol", some "x@y.z", "pw1"⟩

def regSpec2 : UserCreate := ⟨"dave", some "x@y.z", "pw2"⟩

theorem claim_C10_witness :
    register ⟨[⟨1, "carol", some "x@y.z", get_password_hash "pw1"⟩], [], []⟩ regSpec2 =
      (⟨[⟨1, "carol", some "x@y.z", get_password_hash "pw1"⟩], [], []⟩,
        Except.error ApiError.integrityError) ∧
    register ⟨[⟨1, "carol", some "x@y.z", get_password_hash "pw1"⟩], [], []⟩ regSpec2 ≠
      (⟨[⟨1, "carol", some "x@y.z", get_password_hash "pw1"⟩], [], []⟩,
        Except.error ApiError.usernameTaken) :=
  claim_C10_email_conflict emptyStore regSpec1 regSpec2 "x@y.z" rfl rfl
    (by decide) (by decide)
    ⟨[⟨1, "carol", some "x@y.z", get_password_hash "pw1"⟩], [], []⟩ 1 (by decide)
